import Mathlib

/-!
Shallow embedding of the Intern-tracker client code.

Variant A is the tracker page (file src/unnamed/part_000): intern records
with sheet-status consistency rules, a randomized seed generator, filtering,
pagination and CSV export.  Variant B is the CRUD page
(file src/client/pages/Index.tsx): records with department, mentor, start
date, status and score, plus summary statistics and a guarded add operation.

JavaScript numbers that the UI feeds into these functions are embedded as
Int (the data model declares them integers; Math.floor is the identity
there).  Calls to Math.random() are embedded as explicit rational draws in
[0, 1) passed as parameters.
-/

/-- Checks that q is a prefix of s, character by character (helper for the
embedding of String.prototype.includes). -/
def hasPrefixCh : List Char → List Char → Bool
  | _, [] => true
  | [], _ :: _ => false
  | a :: s, b :: q => a == b && hasPrefixCh s q

/-- Checks that q occurs as a contiguous run inside s. -/
def containsCh (q : List Char) : List Char → Bool
  | [] => List.isEmpty q
  | a :: s => hasPrefixCh (a :: s) q || containsCh q s

/-- Embedding of JavaScript s.includes(q): substring containment. -/
def jsIncludes (s q : String) : Bool := containsCh q.toList s.toList

/-- Embedding of String.prototype.trim: strip whitespace from both ends. -/
def jsTrim (s : String) : String :=
  String.mk
    (((s.toList.dropWhile Char.isWhitespace).reverse.dropWhile
        Char.isWhitespace).reverse)

/-- Embedding of String.prototype.toLowerCase: lower every character. -/
def jsToLower (s : String) : String := String.mk (s.toList.map Char.toLower)

/-- The comma separator used by Array.prototype.join in exportToCsv. -/
def commaStr : String := ","

/-- The newline separator used to join CSV rows. -/
def nlStr : String := "\n"

/-- Embedding of Array.prototype.join(sep). -/
def joinStrings (sep : String) : List String → String
  | [] => ""
  | [a] => a
  | a :: b :: rest => a ++ sep ++ joinStrings sep (b :: rest)

/-- Plain concatenation of a list of strings (used to state the row
structure of the CSV document). -/
def concatStrings : List String → String
  | [] => ""
  | a :: rest => a ++ concatStrings rest

namespace VariantA

inductive StatusActivity
  | Active
  | Inactive
  | Leave
deriving DecidableEq

inductive YesNo
  | Yes
  | No
deriving DecidableEq

inductive Performance
  | Good
  | Weak
deriving DecidableEq

inductive Segregation
  | Resign
  | Warning
  | Terminated
  | Relocated
deriving DecidableEq

inductive SheetStatus
  | Green
  | Red
  | Black
deriving DecidableEq

/-- The record type of variant A (type Intern in src/unnamed/part_000). -/
structure Intern where
  id : String
  name : String
  email : String
  statusActivity : StatusActivity
  excelSubmitted : YesNo
  aiChatAdded : Bool
  dataMiningGC : Bool
  speakersCount : Int
  speakersTarget : Int
  performance : Performance
  segregation : Option Segregation
  sheetStatus : SheetStatus
  dataRepurposed : YesNo
deriving DecidableEq

/-- Display string of a StatusActivity value (the TS string literal). -/
def StatusActivity.str : StatusActivity → String
  | StatusActivity.Active => "Active"
  | StatusActivity.Inactive => "Inactive"
  | StatusActivity.Leave => "Leave"

/-- Display string of a YesNo value. -/
def YesNo.str : YesNo → String
  | YesNo.Yes => "Yes"
  | YesNo.No => "No"

/-- Display string of a Performance value. -/
def Performance.str : Performance → String
  | Performance.Good => "Good"
  | Performance.Weak => "Weak"

/-- Display string of a Segregation value. -/
def Segregation.str : Segregation → String
  | Segregation.Resign => "Resign"
  | Segregation.Warning => "Warning"
  | Segregation.Terminated => "Terminated"
  | Segregation.Relocated => "Relocated"

/-- Display string of a SheetStatus value. -/
def SheetStatus.str : SheetStatus → String
  | SheetStatus.Green => "Green"
  | SheetStatus.Red => "Red"
  | SheetStatus.Black => "Black"

/-- The TS expression segregation ?? empty-string (null becomes empty). -/
def segStr : Option Segregation → String
  | none => ""
  | some s => s.str

/-- Clamping step of updateSpeakers:
Math.max(0, Math.min(1000, Math.floor(count))); Math.floor is the identity
on the Int embedding of the numeric input. -/
def clampSpeakers (c : Int) : Int := max 0 (min 1000 c)

/-- Per-record body of updateSpeakers (src/unnamed/part_000 lines 262-281):
store the clamped count, then force sheetStatus Green when the new count
reaches the target and segregation is not Terminated or Relocated. -/
def updateSpeakersRecord (c : Int) (p : Intern) : Intern :=
  let updated : Intern := { p with speakersCount := clampSpeakers c }
  if updated.speakersCount ≥ updated.speakersTarget ∧
      (updated.segregation = none ∨
        (updated.segregation ≠ some Segregation.Terminated ∧
          updated.segregation ≠ some Segregation.Relocated)) then
    { updated with sheetStatus := SheetStatus.Green }
  else
    updated

/-- updateSpeakers: map over the store, touching only the record whose id
matches. -/
def updateSpeakers (id : String) (c : Int) (prev : List Intern) : List Intern :=
  prev.map (fun p => if p.id = id then updateSpeakersRecord c p else p)

/-- Per-record body of setSegregation (src/unnamed/part_000 lines 307-317):
store the new segregation value, then force sheetStatus Black when it is
Terminated or Relocated. -/
def setSegregationRecord (v : Option Segregation) (p : Intern) : Intern :=
  let updated : Intern := { p with segregation := v }
  if v = some Segregation.Terminated ∨ v = some Segregation.Relocated then
    { updated with sheetStatus := SheetStatus.Black }
  else
    updated

/-- setSegregation: map over the store, touching only the matched record. -/
def setSegregation (id : String) (v : Option Segregation) (prev : List Intern) :
    List Intern :=
  prev.map (fun p => if p.id = id then setSegregationRecord v p else p)

/-- setSheetStatus (src/unnamed/part_000 lines 282-286): unconditional
replacement of sheetStatus on the matched record. -/
def setSheetStatus (id : String) (status : SheetStatus) (prev : List Intern) :
    List Intern :=
  prev.map (fun p => if p.id = id then { p with sheetStatus := status } else p)

/-- setStatusActivity: unconditional field replacement. -/
def setStatusActivity (id : String) (s : StatusActivity) (prev : List Intern) :
    List Intern :=
  prev.map (fun p => if p.id = id then { p with statusActivity := s } else p)

/-- setExcelSubmitted: unconditional field replacement. -/
def setExcelSubmitted (id : String) (v : YesNo) (prev : List Intern) :
    List Intern :=
  prev.map (fun p => if p.id = id then { p with excelSubmitted := v } else p)

/-- setDataRepurposed: unconditional field replacement. -/
def setDataRepurposed (id : String) (v : YesNo) (prev : List Intern) :
    List Intern :=
  prev.map (fun p => if p.id = id then { p with dataRepurposed := v } else p)

/-- setPerformance: unconditional field replacement. -/
def setPerformance (id : String) (v : Performance) (prev : List Intern) :
    List Intern :=
  prev.map (fun p => if p.id = id then { p with performance := v } else p)

/-- setName: unconditional field replacement. -/
def setName (id : String) (name : String) (prev : List Intern) : List Intern :=
  prev.map (fun p => if p.id = id then { p with name := name } else p)

/-- setEmail: unconditional field replacement. -/
def setEmail (id : String) (email : String) (prev : List Intern) : List Intern :=
  prev.map (fun p => if p.id = id then { p with email := email } else p)

/-- toggleAiChat: negate the aiChatAdded flag of the matched record. -/
def toggleAiChat (id : String) (prev : List Intern) : List Intern :=
  prev.map (fun p => if p.id = id then { p with aiChatAdded := !p.aiChatAdded } else p)

/-- toggleDataMining: negate the dataMiningGC flag of the matched record. -/
def toggleDataMining (id : String) (prev : List Intern) : List Intern :=
  prev.map (fun p => if p.id = id then { p with dataMiningGC := !p.dataMiningGC } else p)

/-- One iteration of Math.random() draws consumed by generateSeedInterns,
in the call order of src/unnamed/part_000 lines 116-145; each draw lies in
[0, 1) and is embedded as a rational parameter. -/
structure SeedDraws where
  statusRand : ℚ
  excelRand : ℚ
  aiRand : ℚ
  dmRand : ℚ
  speakersRand : ℚ
  perfRand : ℚ
  segRand : ℚ
  sheetRand : ℚ
  repRand : ℚ

/-- Seed statusActivity: statusRand greater than 0.15 gives Active, else
Inactive. -/
def seedStatusActivity (r : ℚ) : StatusActivity :=
  if r > 15/100 then StatusActivity.Active else StatusActivity.Inactive

/-- Seed excelSubmitted: draw greater than 0.35 gives Yes. -/
def seedExcel (r : ℚ) : YesNo :=
  if r > 35/100 then YesNo.Yes else YesNo.No

/-- Seed boolean flag: Math.random() greater than 0.5. -/
def seedFlag (r : ℚ) : Bool :=
  if r > 1/2 then true else false

/-- Seed speakersCount: Math.floor(Math.random() * 120), range 0-119. -/
def seedSpeakers (r : ℚ) : Int := ⌊r * 120⌋

/-- Seed performance: Good when count above 60 with both flags set,
otherwise Good only on a draw above 0.8. -/
def seedPerformance (count : Int) (ai dm : Bool) (r : ℚ) : Performance :=
  if 60 < count ∧ ai = true ∧ dm = true then Performance.Good
  else if r > 8/10 then Performance.Good
  else Performance.Weak

/-- Seed segregation from a single draw: above 0.985 Relocated, above 0.97
Terminated, above 0.95 Warning, else none. -/
def seedSegregation (r : ℚ) : Option Segregation :=
  if r > 985/1000 then some Segregation.Relocated
  else if r > 97/100 then some Segregation.Terminated
  else if r > 95/100 then some Segregation.Warning
  else none

/-- Seed sheetStatus (src/unnamed/part_000 lines 139-144): Black on
Terminated or Relocated, Green on excel Yes with a flag set, else a draw
above 0.7 gives Red and otherwise Green. -/
def seedSheetStatus (seg : Option Segregation) (excel : YesNo) (ai dm : Bool)
    (r : ℚ) : SheetStatus :=
  if seg = some Segregation.Terminated ∨ seg = some Segregation.Relocated then
    SheetStatus.Black
  else if excel = YesNo.Yes ∧ (ai = true ∨ dm = true) then SheetStatus.Green
  else if r > 7/10 then SheetStatus.Red
  else SheetStatus.Green

/-- Seed dataRepurposed: draw above 0.8 gives Yes. -/
def seedRepurposed (r : ℚ) : YesNo :=
  if r > 8/10 then YesNo.Yes else YesNo.No

/-- One record produced by generateSeedInterns: id is Date.now()-i, name and
email start blank, and the remaining fields come from the draws as in the
source. -/
def mkSeedIntern (now i : Nat) (d : SeedDraws) : Intern :=
  { id := toString now ++ "-" ++ toString i
    name := ""
    email := ""
    statusActivity := seedStatusActivity d.statusRand
    excelSubmitted := seedExcel d.excelRand
    aiChatAdded := seedFlag d.aiRand
    dataMiningGC := seedFlag d.dmRand
    speakersCount := seedSpeakers d.speakersRand
    speakersTarget := 100
    performance :=
      seedPerformance (seedSpeakers d.speakersRand) (seedFlag d.aiRand)
        (seedFlag d.dmRand) d.perfRand
    segregation := seedSegregation d.segRand
    sheetStatus :=
      seedSheetStatus (seedSegregation d.segRand) (seedExcel d.excelRand)
        (seedFlag d.aiRand) (seedFlag d.dmRand) d.sheetRand
    dataRepurposed := seedRepurposed d.repRand }

/-- generateSeedInterns(count): records for i = 0 .. count-1, each consuming
its own draws. -/
def generateSeedInterns (now count : Nat) (draws : Nat → SeedDraws) :
    List Intern :=
  (List.range count).map (fun i => mkSeedIntern now i (draws i))

/-- The claimed per-record invariant: Terminated or Relocated segregation
forces a Black sheetStatus. -/
def SegBlack (p : Intern) : Prop :=
  p.segregation = some Segregation.Terminated ∨
      p.segregation = some Segregation.Relocated →
    p.sheetStatus = SheetStatus.Black

/-- The store-level invariant of claim C3. -/
def SegInv (s : List Intern) : Prop := ∀ p ∈ s, SegBlack p

/-- One variant-A mutation, excluding the direct sheet-status setter. -/
inductive StepSafe : List Intern → List Intern → Prop
  | name (s : List Intern) (id n : String) : StepSafe s (setName id n s)
  | email (s : List Intern) (id e : String) : StepSafe s (setEmail id e s)
  | statusActivity (s : List Intern) (id : String) (v : StatusActivity) :
      StepSafe s (setStatusActivity id v s)
  | excel (s : List Intern) (id : String) (v : YesNo) :
      StepSafe s (setExcelSubmitted id v s)
  | aiChat (s : List Intern) (id : String) : StepSafe s (toggleAiChat id s)
  | dataMining (s : List Intern) (id : String) :
      StepSafe s (toggleDataMining id s)
  | speakers (s : List Intern) (id : String) (c : Int) :
      StepSafe s (updateSpeakers id c s)
  | performance (s : List Intern) (id : String) (v : Performance) :
      StepSafe s (setPerformance id v s)
  | segregation (s : List Intern) (id : String) (v : Option Segregation) :
      StepSafe s (setSegregation id v s)
  | repurposed (s : List Intern) (id : String) (v : YesNo) :
      StepSafe s (setDataRepurposed id v s)

/-- One variant-A mutation from the full list of claim C3, including the
direct sheet-status setter. -/
inductive StepFull : List Intern → List Intern → Prop
  | safe (s t : List Intern) : StepSafe s t → StepFull s t
  | sheet (s : List Intern) (id : String) (v : SheetStatus) :
      StepFull s (setSheetStatus id v s)

/-- Stores reachable from a seed output by the mutations other than the
direct sheet-status setter. -/
inductive ReachableSafe : List Intern → Prop
  | seed (now count : Nat) (draws : Nat → SeedDraws) :
      ReachableSafe (generateSeedInterns now count draws)
  | step (s t : List Intern) : ReachableSafe s → StepSafe s t → ReachableSafe t

/-- Stores reachable from a seed output by the full variant-A mutation list
of claim C3. -/
inductive ReachableFull : List Intern → Prop
  | seed (now count : Nat) (draws : Nat → SeedDraws) :
      ReachableFull (generateSeedInterns now count draws)
  | step (s t : List Intern) : ReachableFull s → StepFull s t → ReachableFull t

/-- Query predicate of the variant-A filter: the lowercased name, email or
segregation display string contains the (already trimmed and lowercased)
query. -/
def queryMatchA (q : String) (i : Intern) : Bool :=
  jsIncludes (jsToLower i.name) q || jsIncludes (jsToLower i.email) q ||
    jsIncludes (jsToLower (segStr i.segregation)) q

/-- The filter pipeline of the tracker page (src/unnamed/part_000 lines
182-198), before the sort step: sheet-status filter, then performance
filter, then free-text query (the query is trimmed and lowercased, an empty
query matches everything). -/
def filteredA (interns : List Intern) (filterSheet filterPerf search : String) :
    List Intern :=
  ((interns.filter (fun i =>
        if filterSheet = "All" then true else i.sheetStatus.str == filterSheet)).filter
      (fun i =>
        if filterPerf = "All" then true else i.performance.str == filterPerf)).filter
    (fun i =>
      if jsToLower (jsTrim search) = "" then true
      else queryMatchA (jsToLower (jsTrim search)) i)

/-- totalPages = Math.max(1, Math.ceil(filtered.length / pageSize)), with
ceiling division embedded as (len + size - 1) / size. -/
def totalPages (l : List Intern) (pageSize : Nat) : Nat :=
  max 1 ((l.length + pageSize - 1) / pageSize)

/-- paginated = filtered.slice(start, start + pageSize) with
start = (page - 1) * pageSize. -/
def paginated (l : List Intern) (page pageSize : Nat) : List Intern :=
  (l.drop ((page - 1) * pageSize)).take pageSize

/-- The transient pagination view-state: current page and page size. -/
structure PageState where
  page : Nat
  pageSize : Nat

/-- The Prev button handler: setPage(p maps to Math.max(1, p - 1)). -/
def prevPage (p : Nat) : Nat := max 1 (p - 1)

/-- The Next button handler: setPage(p maps to Math.min(totalPages, p + 1)). -/
def nextPage (t p : Nat) : Nat := min t (p + 1)

/-- The rows-per-page select handler: setPageSize(v) followed by setPage(1).
The select constrains v to 25, 50 or 100; the embedding takes the parsed
number directly. -/
def changePageSize (_st : PageState) (v : Nat) : PageState :=
  { page := 1, pageSize := v }

/-- Embedding of String(x).replaceAll of a double quote by two double
quotes. -/
def escQuote (s : String) : String :=
  String.mk (s.toList.foldr
    (fun c acc => if c = '"' then '"' :: '"' :: acc else c :: acc) [])

/-- One CSV field: the escaped value wrapped in double quotes. -/
def csvCell (x : String) : String := "\"" ++ escQuote x ++ "\""

/-- One CSV row: every field quoted and escaped, joined by commas. -/
def csvRowStr (cells : List String) : String :=
  joinStrings commaStr (cells.map csvCell)

/-- The fixed header row of the variant-A export. -/
def headerA : List String :=
  ["Name", "Email", "Status", "ExcelSubmitted", "AIChatAdded", "DataMiningGC",
    "SpeakersCount", "Performance", "Segregation", "SheetStatus",
    "DataRepurposed"]

/-- The display strings of one record, in export column order: booleans as
Yes or No, the number via String(x), an absent segregation as the empty
string. -/
def rowFieldsA (r : Intern) : List String :=
  [r.name, r.email, r.statusActivity.str, r.excelSubmitted.str,
    if r.aiChatAdded then ("Yes") else ("No"),
    if r.dataMiningGC then ("Yes") else ("No"),
    toString r.speakersCount, r.performance.str, segStr r.segregation,
    r.sheetStatus.str, r.dataRepurposed.str]

/-- The CSV document built by exportToCsv (src/unnamed/part_000 lines
74-103): header row then one row per record, rows joined by newline. -/
def exportToCsv (rows : List Intern) : String :=
  joinStrings nlStr ((headerA :: rows.map rowFieldsA).map csvRowStr)

/-- The example record of the spec scenario: count 50 of target 100, no
segregation, Red sheet. -/
def sampleRed : Intern :=
  { id := "1-0", name := "", email := "", statusActivity := StatusActivity.Active,
    excelSubmitted := YesNo.No, aiChatAdded := false, dataMiningGC := false,
    speakersCount := 50, speakersTarget := 100, performance := Performance.Weak,
    segregation := none, sheetStatus := SheetStatus.Red,
    dataRepurposed := YesNo.No }

/-- A record in good standing, used to exercise the Black override. -/
def sampleGreen : Intern :=
  { sampleRed with sheetStatus := SheetStatus.Green }

/-- Concrete Math.random() draws whose seed record gets segregation
Terminated: the segregation draw 0.98 lies in the Terminated band
(0.97, 0.985]. -/
def cexDraws : SeedDraws :=
  { statusRand := 0, excelRand := 0, aiRand := 0, dmRand := 0,
    speakersRand := 0, perfRand := 0, segRand := 49/50, sheetRand := 0,
    repRand := 0 }

end VariantA

/-- ToInt32: reduce an integer modulo 2 to the 32 into the signed 32-bit
range. -/
def toSigned32 (n : Int) : Int :=
  let m := n % 4294967296
  if m < 2147483648 then m else m - 4294967296

/-- JavaScript hash shifted left by five: the operand is coerced to a signed
32-bit integer and the shift wraps at 32 bits. -/
def shl5js (h : Int) : Int := toSigned32 (toSigned32 h * 32)

/-- One step of the rolling hash: charCode + ((hash shifted left by 5) -
hash); only the shift wraps, the addition and subtraction are exact. -/
def hashStep (h : Int) (c : Nat) : Int := (c : Int) + (shl5js h - h)

/-- The rolling hash of stringToHue over the characters of s. -/
def hashString (s : String) : Int :=
  s.toList.foldl (fun h c => hashStep h c.toNat) 0

/-- stringToHue: Math.abs(hash) % 360. -/
def stringToHue (s : String) : Nat := (hashString s).natAbs % 360

namespace VariantB

inductive Status
  | Active
  | Offer
  | Completed
  | Offboarded
deriving DecidableEq

/-- Display string of a variant-B Status value. -/
def Status.str : Status → String
  | Status.Active => "Active"
  | Status.Offer => "Offer"
  | Status.Completed => "Completed"
  | Status.Offboarded => "Offboarded"

/-- The record type of variant B (type Intern in
src/client/pages/Index.tsx). -/
structure Intern where
  id : String
  name : String
  email : String
  department : String
  mentor : String
  startDate : String
  status : Status
  score : Int
deriving DecidableEq

/-- Query predicate of the variant-B filter: the lowercased name, email,
mentor or department contains the (trimmed, lowercased) query. -/
def queryMatchB (q : String) (i : Intern) : Bool :=
  jsIncludes (jsToLower i.name) q || jsIncludes (jsToLower i.email) q ||
    jsIncludes (jsToLower i.mentor) q || jsIncludes (jsToLower i.department) q

/-- The filter pipeline of the CRUD page (src/client/pages/Index.tsx lines
131-144), before the sort step: department filter, then status filter, then
free-text query. -/
def filteredB (interns : List Intern) (dept status search : String) :
    List Intern :=
  ((interns.filter (fun i =>
        if dept = "All" then true else i.department == dept)).filter
      (fun i => if status = "All" then true else i.status.str == status)).filter
    (fun i =>
      if jsToLower (jsTrim search) = "" then true
      else queryMatchB (jsToLower (jsTrim search)) i)

/-- The summary record of the variant-B stats computation. -/
structure Stats where
  active : Nat
  offers : Nat
  completed : Nat
  avgScore : Int

/-- interns.reduce((s, i) s + i.score, 0). -/
def sumScores (l : List Intern) : Int := l.foldl (fun s i => s + i.score) 0

/-- Math.round on the exact rational value: floor of the value plus one
half (JavaScript rounds half toward positive infinity). -/
def jsRound (q : ℚ) : Int := ⌊q + 1/2⌋

/-- The stats computation (src/client/pages/Index.tsx lines 148-156); the
average is 0 when the store is empty and otherwise the rounded mean. -/
def stats (interns : List Intern) : Stats :=
  { active := (interns.filter (fun i => i.status == Status.Active)).length
    offers := (interns.filter (fun i => i.status == Status.Offer)).length
    completed := (interns.filter (fun i => i.status == Status.Completed)).length
    avgScore :=
      if interns.length = 0 then 0
      else jsRound ((sumScores interns : ℚ) / (interns.length : ℚ)) }

/-- The add-intern dialog form, everything except the id. -/
structure AddForm where
  name : String
  email : String
  department : String
  mentor : String
  startDate : String
  status : Status
  score : Int

/-- The record built by addIntern from a fresh id and the form fields. -/
def mkIntern (id : String) (f : AddForm) : Intern :=
  { id := id, name := f.name, email := f.email, department := f.department,
    mentor := f.mentor, startDate := f.startDate, status := f.status,
    score := f.score }

/-- addIntern (src/client/pages/Index.tsx lines 170-184): a blank name or
email aborts with the store unchanged; otherwise the new record is
prepended.  The id is Math.random-derived in the source and is a parameter
here. -/
def addIntern (f : AddForm) (newId : String) (prev : List Intern) :
    List Intern :=
  if f.name = "" ∨ f.email = "" then prev else mkIntern newId f :: prev

/-- Four concrete variant-B records with the seed scores 92, 81, 88, 75. -/
def sampleListB : List Intern :=
  [{ id := "1", name := "Ava Patel", email := "ava.patel@example.com",
     department := "Engineering", mentor := "M. Nguyen",
     startDate := "2025-01-01", status := Status.Active, score := 92 },
   { id := "2", name := "Liam Johnson", email := "liam.johnson@example.com",
     department := "Design", mentor := "S. Kaur", startDate := "2024-12-02",
     status := Status.Active, score := 81 },
   { id := "3", name := "Maya Chen", email := "maya.chen@example.com",
     department := "Marketing", mentor := "R. Davis",
     startDate := "2024-10-03", status := Status.Completed, score := 88 },
   { id := "4", name := "Ethan Garcia", email := "ethan.garcia@example.com",
     department := "Engineering", mentor := "K. Brown",
     startDate := "2024-12-25", status := Status.Offer, score := 75 }]

/-- A filled-in add-intern form. -/
def sampleForm : AddForm :=
  { name := "Ava", email := "ava@example.com", department := "Engineering",
    mentor := "M", startDate := "2025-01-01", status := Status.Active,
    score := 80 }

end VariantB

/-! ### Helper lemmas -/

theorem str_append_empty (s : String) : s ++ "" = s := by
  cases s with
  | mk d => exact congrArg String.mk (List.append_nil d)

theorem str_append_assoc (a b c : String) : a ++ b ++ c = a ++ (b ++ c) := by
  cases a with
  | mk x =>
    cases b with
    | mk y =>
      cases c with
      | mk z => exact congrArg String.mk (List.append_assoc x y z)

theorem jsToLower_empty_iff (s : String) : jsToLower s = "" ↔ s = "" := by
  constructor
  · intro h
    have hd := congrArg String.data h
    simp only [jsToLower] at hd
    cases s with
    | mk d =>
      apply congrArg String.mk
      simpa using hd
  · intro h
    subst h
    rfl

namespace VariantA

theorem seg_cond_iff (seg : Option Segregation) :
    (seg = none ∨
        (seg ≠ some Segregation.Terminated ∧ seg ≠ some Segregation.Relocated)) ↔
      (seg ≠ some Segregation.Terminated ∧ seg ≠ some Segregation.Relocated) := by
  cases seg <;> simp

end VariantA

/-! ### Claim C1: updateSpeakers clamps and forces Green one way -/

/-- Claim C1: for every store, id and numeric input c, updateSpeakers(id, c)
rewrites the matched records by updateSpeakersRecord, which sets
speakersCount to c clamped to [0, 1000], leaves target and segregation
alone, forces sheetStatus to Green exactly when the clamped value reaches
the target and segregation is neither Terminated nor Relocated, and
otherwise leaves sheetStatus exactly as it was (so a count dropping below
target never downgrades a Green sheet). -/
theorem claim_C1 (prev : List VariantA.Intern) (id : String) (c : Int) :
    VariantA.updateSpeakers id c prev =
      prev.map (fun p =>
        if p.id = id then VariantA.updateSpeakersRecord c p else p) ∧
    ∀ p : VariantA.Intern,
      (VariantA.updateSpeakersRecord c p).speakersCount = max 0 (min 1000 c) ∧
      (VariantA.updateSpeakersRecord c p).speakersTarget = p.speakersTarget ∧
      (VariantA.updateSpeakersRecord c p).segregation = p.segregation ∧
      (max 0 (min 1000 c) ≥ p.speakersTarget ∧
          p.segregation ≠ some VariantA.Segregation.Terminated ∧
          p.segregation ≠ some VariantA.Segregation.Relocated →
        (VariantA.updateSpeakersRecord c p).sheetStatus =
          VariantA.SheetStatus.Green) ∧
      (¬ (max 0 (min 1000 c) ≥ p.speakersTarget ∧
            p.segregation ≠ some VariantA.Segregation.Terminated ∧
            p.segregation ≠ some VariantA.Segregation.Relocated) →
        (VariantA.updateSpeakersRecord c p).sheetStatus = p.sheetStatus) := by
  refine ⟨rfl, fun p => ?_⟩
  unfold VariantA.updateSpeakersRecord VariantA.clampSpeakers
  dsimp only
  split
  case isTrue h =>
    refine ⟨rfl, rfl, rfl, fun _ => rfl, fun hn => absurd ?_ hn⟩
    have h2 := (VariantA.seg_cond_iff p.segregation).mp h.2
    exact ⟨h.1, h2.1, h2.2⟩
  case isFalse h =>
    refine ⟨rfl, rfl, rfl, fun hd => absurd ?_ h, fun _ => rfl⟩
    exact ⟨hd.1, Or.inr ⟨hd.2.1, hd.2.2⟩⟩

/-- Witness for C1: the spec scenario, count 120 on a Red record with count
50 and target 100 clamps to 120 and turns the sheet Green. -/
theorem claim_C1_witness :
    (VariantA.updateSpeakersRecord 120 VariantA.sampleRed).speakersCount =
        max 0 (min 1000 120) ∧
      (VariantA.updateSpeakersRecord 120 VariantA.sampleRed).sheetStatus =
        VariantA.SheetStatus.Green := by
  have h := (claim_C1 [VariantA.sampleRed] "1-0" 120).2 VariantA.sampleRed
  exact ⟨h.1, h.2.2.2.1 (by decide)⟩

/-! ### Claim C2: setSegregation forces Black one way -/

/-- Claim C2: for every store, id and value v, setSegregation(id, v)
rewrites the matched records by setSegregationRecord, which stores v as the
new segregation, forces sheetStatus to Black exactly when v is Terminated
or Relocated, and for any other v leaves sheetStatus exactly as it was,
even when it was previously Black. -/
theorem claim_C2 (prev : List VariantA.Intern) (id : String)
    (v : Option VariantA.Segregation) :
    VariantA.setSegregation id v prev =
      prev.map (fun p =>
        if p.id = id then VariantA.setSegregationRecord v p else p) ∧
    ∀ p : VariantA.Intern,
      (VariantA.setSegregationRecord v p).segregation = v ∧
      (v = some VariantA.Segregation.Terminated ∨
          v = some VariantA.Segregation.Relocated →
        (VariantA.setSegregationRecord v p).sheetStatus =
          VariantA.SheetStatus.Black) ∧
      (¬ (v = some VariantA.Segregation.Terminated ∨
            v = some VariantA.Segregation.Relocated) →
        (VariantA.setSegregationRecord v p).sheetStatus = p.sheetStatus) := by
  refine ⟨rfl, fun p => ?_⟩
  unfold VariantA.setSegregationRecord
  dsimp only
  split
  case isTrue h => exact ⟨rfl, fun _ => rfl, fun hn => absurd h hn⟩
  case isFalse h => exact ⟨rfl, fun hd => absurd hd h, fun _ => rfl⟩

/-- Witness for C2: setting Terminated on a Green record yields Black. -/
theorem claim_C2_witness :
    (VariantA.setSegregationRecord (some VariantA.Segregation.Terminated)
        VariantA.sampleGreen).sheetStatus = VariantA.SheetStatus.Black :=
  ((claim_C2 [VariantA.sampleGreen] "1-0"
        (some VariantA.Segregation.Terminated)).2
      VariantA.sampleGreen).2.1 (Or.inl rfl)

/-! ### Claim C9: stringToHue -/

/-- Claim C9: for every string s, stringToHue s is the absolute value of the
rolling hash modulo 360, the hash iterates charCode + ((hash shifted left
by five with 32-bit wrap) - hash) from 0 over the characters, and the
result is always below 360; determinism holds because stringToHue is a
function of s alone. -/
theorem claim_C9 (s : String) :
    stringToHue s = (hashString s).natAbs % 360 ∧
    hashString s =
      s.toList.foldl (fun h c => (c.toNat : Int) + (shl5js h - h)) 0 ∧
    stringToHue s < 360 :=
  ⟨rfl, rfl, Nat.mod_lt _ (by norm_num)⟩

/-! ### Claim C10: addIntern guard -/

/-- Claim C10: addIntern leaves the store unchanged when the form name or
email is empty, and otherwise prepends exactly one record carrying the form
fields and the fresh id, existing records unchanged. -/
theorem claim_C10 (f : VariantB.AddForm) (newId : String)
    (prev : List VariantB.Intern) :
    (f.name = "" ∨ f.email = "" → VariantB.addIntern f newId prev = prev) ∧
    (f.name ≠ "" → f.email ≠ "" →
      VariantB.addIntern f newId prev = VariantB.mkIntern newId f :: prev) ∧
    (VariantB.mkIntern newId f).id = newId ∧
    (VariantB.mkIntern newId f).name = f.name ∧
    (VariantB.mkIntern newId f).email = f.email ∧
    (VariantB.mkIntern newId f).department = f.department ∧
    (VariantB.mkIntern newId f).mentor = f.mentor ∧
    (VariantB.mkIntern newId f).startDate = f.startDate ∧
    (VariantB.mkIntern newId f).status = f.status ∧
    (VariantB.mkIntern newId f).score = f.score := by
  refine ⟨fun h => ?_, fun h1 h2 => ?_, rfl, rfl, rfl, rfl, rfl, rfl, rfl, rfl⟩
  · unfold VariantB.addIntern
    rw [if_pos h]
  · unfold VariantB.addIntern
    rw [if_neg (by tauto)]

/-- Witness for C10: a filled form adds exactly one record at the front. -/
theorem claim_C10_witness :
    VariantB.addIntern VariantB.sampleForm "id7" [] =
      [VariantB.mkIntern "id7" VariantB.sampleForm] :=
  (claim_C10 VariantB.sampleForm "id7" []).2.1 (by decide) (by decide)

/-! ### Claim C6: page navigation controls -/

/-- Counterexample to C6 as stated: the claim quantifies over every current
page p ≥ 1 and totalPages t ≥ 1 and asserts the controls keep the page
within [1, t]; but from p = 3 with t = 1 the Prev control yields
max(1, 3 - 1) = 2, which is outside [1, 1].  (The app can reach p above t:
shrinking the filtered list does not reset the page.) -/
theorem claim_C6_cex :
    ¬ (∀ p t : Nat, 1 ≤ p → 1 ≤ t →
        1 ≤ VariantA.prevPage p ∧ VariantA.prevPage p ≤ t ∧
          1 ≤ VariantA.nextPage t p ∧ VariantA.nextPage t p ≤ t) :=
  fun h => absurd (h 3 1 (by norm_num) (by norm_num)).2.1 (by decide)

/-- Claim C6 (amended): Prev yields max(1, p-1) and Next yields
min(t, p+1); Next always lands in [1, t], Prev is always ≥ 1 and stays
≤ t whenever the current page was already ≤ t; changing the page size
resets the page to 1. -/
theorem claim_C6 (p t : Nat) (hp : 1 ≤ p) (ht : 1 ≤ t) :
    VariantA.prevPage p = max 1 (p - 1) ∧
    VariantA.nextPage t p = min t (p + 1) ∧
    1 ≤ VariantA.prevPage p ∧
    1 ≤ VariantA.nextPage t p ∧
    VariantA.nextPage t p ≤ t ∧
    (p ≤ t → VariantA.prevPage p ≤ t) ∧
    ∀ (st : VariantA.PageState) (v : Nat),
      (VariantA.changePageSize st v).page = 1 := by
  refine ⟨rfl, rfl, ?_, ?_, ?_, fun hpt => ?_, fun st v => rfl⟩
  · unfold VariantA.prevPage
    omega
  · unfold VariantA.nextPage
    omega
  · unfold VariantA.nextPage
    omega
  · unfold VariantA.prevPage
    omega

/-- Witness for C6 at page 3 of 5. -/
theorem claim_C6_witness :
    VariantA.prevPage 3 = max 1 (3 - 1) ∧
    VariantA.nextPage 5 3 = min 5 (3 + 1) ∧
    1 ≤ VariantA.prevPage 3 ∧
    1 ≤ VariantA.nextPage 5 3 ∧
    VariantA.nextPage 5 3 ≤ 5 ∧
    (3 ≤ 5 → VariantA.prevPage 3 ≤ 5) ∧
    ∀ (st : VariantA.PageState) (v : Nat),
      (VariantA.changePageSize st v).page = 1 :=
  claim_C6 3 5 (by norm_num) (by norm_num)

/-! ### Claim C8: variant-B average score -/

/-- Claim C8: the average score of an empty store is 0 (the division is
guarded), a non-empty store yields the rounded mean of the scores, and the
rounding really is to a nearest integer (the rounded value differs from the
exact mean by at most one half). -/
theorem claim_C8 :
    (VariantB.stats []).avgScore = 0 ∧
    (∀ l : List VariantB.Intern, l ≠ [] →
      (VariantB.stats l).avgScore =
        VariantB.jsRound
          ((VariantB.sumScores l : ℚ) / (l.length : ℚ))) ∧
    ∀ q : ℚ, |q - (VariantB.jsRound q : ℚ)| ≤ 1/2 := by
  refine ⟨rfl, fun l hl => ?_, fun q => ?_⟩
  · show (if l.length = 0 then 0
        else VariantB.jsRound
          ((VariantB.sumScores l : ℚ) / (l.length : ℚ))) = _
    rw [if_neg (fun h => hl (List.length_eq_zero.mp h))]
  · unfold VariantB.jsRound
    have h1 := Int.floor_le (q + 1/2)
    have h2 := Int.lt_floor_add_one (q + 1/2)
    rw [abs_le]
    constructor <;> linarith

/-- Witness for C8: the four seed records with scores 92, 81, 88, 75
produce the rounded mean of their scores. -/
theorem claim_C8_witness :
    (VariantB.stats VariantB.sampleListB).avgScore =
      VariantB.jsRound
        ((VariantB.sumScores VariantB.sampleListB : ℚ) /
          (VariantB.sampleListB.length : ℚ)) :=
  claim_C8.2.1 VariantB.sampleListB (by decide)

/-! ### Claim C4: filtering -/

/-- Claim C4: in both variants the filter pipeline (before the sort step)
returns a subsequence of the input in which every record satisfies every
categorical filter that is not All and, when the trimmed query is
non-empty, matches the query on the searched fields (name, email,
segregation in variant A; name, email, mentor, department in variant B);
when every filter is All and the query trims to empty, the result is the
input unchanged. -/
theorem claim_C4 :
    (∀ (R : List VariantA.Intern) (fs fp q : String),
      (VariantA.filteredA R fs fp q).Sublist R ∧
      (∀ i ∈ VariantA.filteredA R fs fp q,
        (fs ≠ "All" → i.sheetStatus.str = fs) ∧
        (fp ≠ "All" → i.performance.str = fp) ∧
        (jsTrim q ≠ "" →
          VariantA.queryMatchA (jsToLower (jsTrim q)) i = true)) ∧
      (fs = "All" → fp = "All" → jsTrim q = "" →
        VariantA.filteredA R fs fp q = R)) ∧
    (∀ (R : List VariantB.Intern) (dept stf q : String),
      (VariantB.filteredB R dept stf q).Sublist R ∧
      (∀ i ∈ VariantB.filteredB R dept stf q,
        (dept ≠ "All" → i.department = dept) ∧
        (stf ≠ "All" → i.status.str = stf) ∧
        (jsTrim q ≠ "" →
          VariantB.queryMatchB (jsToLower (jsTrim q)) i = true)) ∧
      (dept = "All" → stf = "All" → jsTrim q = "" →
        VariantB.filteredB R dept stf q = R)) := by
  constructor
  · intro R fs fp q
    refine ⟨?_, ?_, ?_⟩
    · unfold VariantA.filteredA
      exact (List.filter_sublist _).trans
        ((List.filter_sublist _).trans (List.filter_sublist _))
    · intro i hi
      unfold VariantA.filteredA at hi
      have h3 := List.mem_filter.mp hi
      have h2 := List.mem_filter.mp h3.1
      have h1 := List.mem_filter.mp h2.1
      refine ⟨fun hfs => ?_, fun hfp => ?_, fun hq => ?_⟩
      · have hb := h1.2
        simp only [if_neg hfs] at hb
        exact eq_of_beq hb
      · have hb := h2.2
        simp only [if_neg hfp] at hb
        exact eq_of_beq hb
      · have hq2 : jsToLower (jsTrim q) ≠ "" :=
          fun hh => hq ((jsToLower_empty_iff _).mp hh)
        have hb := h3.2
        simp only [if_neg hq2] at hb
        exact hb
    · intro hfs hfp hq
      subst hfs
      subst hfp
      have e3 : jsToLower (jsTrim q) = "" := by
        rw [hq]
        rfl
      unfold VariantA.filteredA
      have r1 : ∀ l : List VariantA.Intern,
          l.filter (fun i =>
            if ("All" : String) = "All" then true
            else i.sheetStatus.str == "All") = l :=
        fun l => List.filter_eq_self.mpr (fun a _ => by simp)
      have r2 : ∀ l : List VariantA.Intern,
          l.filter (fun i =>
            if ("All" : String) = "All" then true
            else i.performance.str == "All") = l :=
        fun l => List.filter_eq_self.mpr (fun a _ => by simp)
      have r3 : ∀ l : List VariantA.Intern,
          l.filter (fun i =>
            if jsToLower (jsTrim q) = "" then true
            else VariantA.queryMatchA (jsToLower (jsTrim q)) i) = l :=
        fun l => List.filter_eq_self.mpr (fun a _ => by simp [e3])
      rw [r1, r2, r3]
  · intro R dept stf q
    refine ⟨?_, ?_, ?_⟩
    · unfold VariantB.filteredB
      exact (List.filter_sublist _).trans
        ((List.filter_sublist _).trans (List.filter_sublist _))
    · intro i hi
      unfold VariantB.filteredB at hi
      have h3 := List.mem_filter.mp hi
      have h2 := List.mem_filter.mp h3.1
      have h1 := List.mem_filter.mp h2.1
      refine ⟨fun hd => ?_, fun hs => ?_, fun hq => ?_⟩
      · have hb := h1.2
        simp only [if_neg hd] at hb
        exact eq_of_beq hb
      · have hb := h2.2
        simp only [if_neg hs] at hb
        exact eq_of_beq hb
      · have hq2 : jsToLower (jsTrim q) ≠ "" :=
          fun hh => hq ((jsToLower_empty_iff _).mp hh)
        have hb := h3.2
        simp only [if_neg hq2] at hb
        exact hb
    · intro hd hs hq
      subst hd
      subst hs
      have e3 : jsToLower (jsTrim q) = "" := by
        rw [hq]
        rfl
      unfold VariantB.filteredB
      have r1 : ∀ l : List VariantB.Intern,
          l.filter (fun i =>
            if ("All" : String) = "All" then true
            else i.department == "All") = l :=
        fun l => List.filter_eq_self.mpr (fun a _ => by simp)
      have r2 : ∀ l : List VariantB.Intern,
          l.filter (fun i =>
            if ("All" : String) = "All" then true
            else i.status.str == "All") = l :=
        fun l => List.filter_eq_self.mpr (fun a _ => by simp)
      have r3 : ∀ l : List VariantB.Intern,
          l.filter (fun i =>
            if jsToLower (jsTrim q) = "" then true
            else VariantB.queryMatchB (jsToLower (jsTrim q)) i) = l :=
        fun l => List.filter_eq_self.mpr (fun a _ => by simp [e3])
      rw [r1, r2, r3]

/-- Witness for C4: with every filter at All and an empty query both filter
pipelines return their input unchanged. -/
theorem claim_C4_witness :
    VariantA.filteredA [VariantA.sampleRed] "All" "All" "" =
        [VariantA.sampleRed] ∧
      VariantB.filteredB VariantB.sampleListB "All" "All" "" =
        VariantB.sampleListB :=
  ⟨(claim_C4.1 [VariantA.sampleRed] "All" "All" "").2.2 rfl rfl (by decide),
    (claim_C4.2 VariantB.sampleListB "All" "All" "").2.2 rfl rfl (by decide)⟩

/-! ### Claim C5: pagination -/

theorem joinChunks (s : Nat) :
    ∀ (n : Nat) (l : List VariantA.Intern), l.length ≤ n * s →
      ((List.range n).map (fun k => (l.drop (k * s)).take s)).flatten = l := by
  intro n
  induction n with
  | zero =>
    intro l hl
    have : l = [] := List.length_eq_zero.mp (by omega)
    subst this
    rfl
  | succ n ih =>
    intro l hl
    rw [List.range_succ_eq_map, List.map_cons, List.map_map, List.flatten_cons]
    have hmap : (List.range n).map
          ((fun k => (l.drop (k * s)).take s) ∘ Nat.succ) =
        (List.range n).map (fun k => ((l.drop s).drop (k * s)).take s) := by
      apply List.map_congr_left
      intro k _
      show (l.drop (Nat.succ k * s)).take s = ((l.drop s).drop (k * s)).take s
      rw [List.drop_drop, Nat.succ_mul, Nat.add_comm]
    rw [hmap]
    have hlen : (l.drop s).length ≤ n * s := by
      rw [List.length_drop]
      rw [Nat.succ_mul] at hl
      set m := n * s with hm
      omega
    rw [ih (l.drop s) hlen]
    have h0 : (l.drop (0 * s)).take s = l.take s := by
      rw [Nat.zero_mul, List.drop_zero]
    rw [h0, List.take_append_drop]

theorem length_le_totalPages_mul (l : List VariantA.Intern) (s : Nat)
    (hs : 0 < s) : l.length ≤ VariantA.totalPages l s * s := by
  unfold VariantA.totalPages
  set d := (l.length + s - 1) / s with hd
  have hmax : d * s ≤ max 1 d * s := Nat.mul_le_mul_right s (le_max_right 1 d)
  by_contra hcon
  push_neg at hcon
  have h1 : d * s < l.length := lt_of_le_of_lt hmax hcon
  have h2 : (d + 1) * s ≤ l.length + s - 1 := by
    rw [Nat.succ_mul]
    set e := d * s with he
    omega
  have h3 : d + 1 ≤ d := by
    rw [hd]
    exact (Nat.le_div_iff_mul_le hs).mpr h2
  omega

theorem mul_lt_length_of_lt_totalPages (l : List VariantA.Intern) (s p : Nat)
    (hs : 0 < s) (hp : 1 ≤ p) (hlt : p < VariantA.totalPages l s) :
    p * s < l.length := by
  unfold VariantA.totalPages at hlt
  set d := (l.length + s - 1) / s with hd
  have hpd : p < d := by
    rcases Nat.lt_or_ge p d with h | h
    · exact h
    · exfalso
      have : max 1 d ≤ p := max_le hp h
      omega
  have h2 : (p + 1) * s ≤ l.length + s - 1 := by
    have := (Nat.le_div_iff_mul_le hs).mp (by omega : p + 1 ≤ d)
    exact this
  rw [Nat.succ_mul] at h2
  set e := p * s with he
  omega

/-- Claim C5: for every list, 1-based page p and positive page size s, the
pagination operation is exactly the slice [(p-1)s, p s) (drop then take, or
equivalently take then drop), totalPages is max(1, the ceiling of length
over s), every page strictly before the last has exactly s elements, the
last page carries the remaining length - s(totalPages - 1) elements, and
concatenating pages 1 through totalPages in order reproduces the list. -/
theorem claim_C5 (l : List VariantA.Intern) (p s : Nat) (hs : 0 < s) :
    VariantA.paginated l p s = (l.drop ((p - 1) * s)).take s ∧
    VariantA.totalPages l s = max 1 ((l.length + s - 1) / s) ∧
    (1 ≤ p → p < VariantA.totalPages l s →
      (VariantA.paginated l p s).length = s) ∧
    (VariantA.paginated l (VariantA.totalPages l s) s).length =
      l.length - s * (VariantA.totalPages l s - 1) ∧
    ((List.range (VariantA.totalPages l s)).map
        (fun k => VariantA.paginated l (k + 1) s)).flatten = l := by
  refine ⟨rfl, rfl, fun hp hlt => ?_, ?_, ?_⟩
  · unfold VariantA.paginated
    rw [List.length_take, List.length_drop]
    have h1 := mul_lt_length_of_lt_totalPages l s p hs hp hlt
    have hps : (p - 1) * s + s = p * s := by
      have hp1 : p - 1 + 1 = p := Nat.succ_pred_eq_of_pos hp
      rw [← hp1, Nat.succ_mul, Nat.sub_add_cancel hp]
    set e := (p - 1) * s with he
    set f := p * s with hf
    omega
  · unfold VariantA.paginated
    rw [List.length_take, List.length_drop]
    have ht1 : 1 ≤ VariantA.totalPages l s := le_max_left 1 _
    have hle := length_le_totalPages_mul l s hs
    have hts : (VariantA.totalPages l s - 1) * s + s =
        VariantA.totalPages l s * s := by
      have h1 : VariantA.totalPages l s - 1 + 1 = VariantA.totalPages l s :=
        Nat.succ_pred_eq_of_pos ht1
      rw [← h1, Nat.succ_mul, Nat.sub_add_cancel ht1]
    rw [Nat.mul_comm s (VariantA.totalPages l s - 1)]
    set e := (VariantA.totalPages l s - 1) * s with he
    set f := VariantA.totalPages l s * s with hf
    omega
  · have hle := length_le_totalPages_mul l s hs
    exact joinChunks s (VariantA.totalPages l s) l hle

/-- Witness for C5: a one-record list with page size 25 has one page whose
concatenation is the list itself. -/
theorem claim_C5_witness :
    0 < 25 ∧
      ((List.range (VariantA.totalPages [VariantA.sampleRed] 25)).map
          (fun k => VariantA.paginated [VariantA.sampleRed] (k + 1) 25)).flatten =
        [VariantA.sampleRed] :=
  ⟨by norm_num, (claim_C5 [VariantA.sampleRed] 1 25 (by norm_num)).2.2.2.2⟩

/-! ### Claim C7: CSV export -/

theorem joinStrings_cons (sep a : String) (l : List String) :
    joinStrings sep (a :: l) =
      a ++ concatStrings (l.map (fun x => sep ++ x)) := by
  induction l generalizing a with
  | nil => exact (str_append_empty a).symm
  | cons b rest ih =>
    show a ++ sep ++ joinStrings sep (b :: rest) = _
    rw [ih b, List.map_cons]
    show _ = a ++ ((sep ++ b) ++ concatStrings (rest.map (fun x => sep ++ x)))
    rw [str_append_assoc, str_append_assoc]

/-- Claim C7: the CSV export is the header row followed by one row per
record in order, each row joined to the document by the newline character;
every field is the display string wrapped in double quotes with internal
double quotes doubled; in particular the value He said "hi" serializes as
the field "He said ""hi""" . -/
theorem claim_C7 (rows : List VariantA.Intern) :
    VariantA.exportToCsv rows =
      VariantA.csvRowStr VariantA.headerA ++
        concatStrings (rows.map (fun r =>
          nlStr ++ VariantA.csvRowStr (VariantA.rowFieldsA r))) ∧
    (∀ cells : List String,
      VariantA.csvRowStr cells =
        joinStrings commaStr (cells.map VariantA.csvCell)) ∧
    (∀ x : String, VariantA.csvCell x = "\"" ++ VariantA.escQuote x ++ "\"") ∧
    VariantA.escQuote ("He said \"hi\"") = "He said \"\"hi\"\"" ∧
    VariantA.csvCell ("He said \"hi\"") = "\"He said \"\"hi\"\"\"" := by
  refine ⟨?_, fun cells => rfl, fun x => rfl, by decide, by decide⟩
  unfold VariantA.exportToCsv
  rw [List.map_cons, joinStrings_cons, List.map_map, List.map_map]
  rfl

/-- Witness for C7 is not separately needed (the statement has no
hypothesis), but the quantified row shape is exercised on a concrete
record list here via the theorem itself. -/
theorem claim_C7_witness :
    VariantA.exportToCsv [] = VariantA.csvRowStr VariantA.headerA := by
  have h := (claim_C7 []).1
  simpa [concatStrings] using h

/-! ### Claim C3: the segregation/Black invariant -/

namespace VariantA

theorem segInv_map (f : Intern → Intern)
    (hf : ∀ p, SegBlack p → SegBlack (f p)) (s : List Intern)
    (h : SegInv s) : SegInv (s.map f) := by
  intro p hp
  rcases List.mem_map.mp hp with ⟨q, hq, rfl⟩
  exact hf q (h q hq)

theorem segInv_update (id : String) (g : Intern → Intern)
    (hg : ∀ p, SegBlack p → SegBlack (g p)) (s : List Intern)
    (h : SegInv s) :
    SegInv (s.map (fun p => if p.id = id then g p else p)) := by
  refine segInv_map _ (fun p hp => ?_) s h
  by_cases hid : p.id = id
  · rw [if_pos hid]
    exact hg p hp
  · rw [if_neg hid]
    exact hp

theorem segBlack_updateSpeakersRecord (c : Int) (p : Intern)
    (hp : SegBlack p) : SegBlack (updateSpeakersRecord c p) := by
  unfold updateSpeakersRecord
  dsimp only
  split
  case isTrue h =>
    intro hseg
    exfalso
    have h2 := (seg_cond_iff p.segregation).mp h.2
    rcases hseg with h3 | h3
    · exact h2.1 h3
    · exact h2.2 h3
  case isFalse h =>
    intro hseg
    exact hp hseg

theorem segBlack_setSegregationRecord (v : Option Segregation) (p : Intern) :
    SegBlack (setSegregationRecord v p) := by
  unfold setSegregationRecord
  dsimp only
  split
  case isTrue h => intro _; rfl
  case isFalse h => intro hseg; exact absurd hseg h

theorem segBlack_mkSeedIntern (now i : Nat) (d : SeedDraws) :
    SegBlack (mkSeedIntern now i d) := by
  intro hseg
  show seedSheetStatus (seedSegregation d.segRand) (seedExcel d.excelRand)
      (seedFlag d.aiRand) (seedFlag d.dmRand) d.sheetRand = SheetStatus.Black
  have hseg2 : seedSegregation d.segRand = some Segregation.Terminated ∨
      seedSegregation d.segRand = some Segregation.Relocated := hseg
  unfold seedSheetStatus
  rw [if_pos hseg2]

theorem segInv_seed (now count : Nat) (draws : Nat → SeedDraws) :
    SegInv (generateSeedInterns now count draws) := by
  intro p hp
  rcases List.mem_map.mp hp with ⟨i, _, rfl⟩
  exact segBlack_mkSeedIntern now i (draws i)

end VariantA

/-- Counterexample to C3 as stated: the operation list of the claim
includes setSheetStatus, which overwrites sheetStatus unconditionally.
From a seed whose only record has segregation Terminated (hence sheetStatus
Black), one setSheetStatus(id, Green) step reaches a store whose record has
segregation Terminated and sheetStatus Green, violating the invariant. -/
theorem claim_C3_cex :
    ¬ (∀ s : List VariantA.Intern,
        VariantA.ReachableFull s → VariantA.SegInv s) := by
  intro h
  have hreach : VariantA.ReachableFull
      (VariantA.setSheetStatus (VariantA.mkSeedIntern 0 0 VariantA.cexDraws).id
        VariantA.SheetStatus.Green
        (VariantA.generateSeedInterns 0 1 (fun _ => VariantA.cexDraws))) :=
    VariantA.ReachableFull.step _ _
      (VariantA.ReachableFull.seed 0 1 (fun _ => VariantA.cexDraws))
      (VariantA.StepFull.sheet _ _ _)
  have hinv := h _ hreach
  have hgen : VariantA.generateSeedInterns 0 1 (fun _ => VariantA.cexDraws) =
      [VariantA.mkSeedIntern 0 0 VariantA.cexDraws] := rfl
  have hset : VariantA.setSheetStatus
      (VariantA.mkSeedIntern 0 0 VariantA.cexDraws).id
      VariantA.SheetStatus.Green
      (VariantA.generateSeedInterns 0 1 (fun _ => VariantA.cexDraws)) =
      [{ VariantA.mkSeedIntern 0 0 VariantA.cexDraws with
          sheetStatus := VariantA.SheetStatus.Green }] := by
    rw [hgen]
    unfold VariantA.setSheetStatus
    rw [List.map_cons, List.map_nil, if_pos rfl]
  rw [hset] at hinv
  have hsegval : VariantA.seedSegregation VariantA.cexDraws.segRand =
      some VariantA.Segregation.Terminated := by
    unfold VariantA.seedSegregation
    rw [if_neg (by norm_num [VariantA.cexDraws]), if_pos (by norm_num [VariantA.cexDraws])]
  have hb := hinv _ (List.mem_singleton.mpr rfl) (Or.inl hsegval)
  simp at hb

/-- Claim C3 (amended): in every store reachable from a seed output by the
variant-A mutations other than the direct sheet-status setter (setName,
setEmail, setStatusActivity, setExcelSubmitted, toggleAiChat,
toggleDataMining, updateSpeakers, setPerformance, setSegregation,
setDataRepurposed), every record with segregation Terminated or Relocated
has sheetStatus Black.  The direct setter setSheetStatus must be excluded:
it can overwrite Black on a segregated record. -/
theorem claim_C3 (s : List VariantA.Intern) (h : VariantA.ReachableSafe s) :
    VariantA.SegInv s := by
  induction h with
  | seed now count draws => exact VariantA.segInv_seed now count draws
  | step s t hs hst ih =>
    cases hst with
    | name id n =>
      exact VariantA.segInv_update id (fun p => { p with name := n })
        (fun p hp => hp) s ih
    | email id e =>
      exact VariantA.segInv_update id (fun p => { p with email := e })
        (fun p hp => hp) s ih
    | statusActivity id v =>
      exact VariantA.segInv_update id (fun p => { p with statusActivity := v })
        (fun p hp => hp) s ih
    | excel id v =>
      exact VariantA.segInv_update id (fun p => { p with excelSubmitted := v })
        (fun p hp => hp) s ih
    | aiChat id =>
      exact VariantA.segInv_update id
        (fun p => { p with aiChatAdded := !p.aiChatAdded })
        (fun p hp => hp) s ih
    | dataMining id =>
      exact VariantA.segInv_update id
        (fun p => { p with dataMiningGC := !p.dataMiningGC })
        (fun p hp => hp) s ih
    | speakers id c =>
      exact VariantA.segInv_update id (VariantA.updateSpeakersRecord c)
        (fun p hp => VariantA.segBlack_updateSpeakersRecord c p hp) s ih
    | performance id v =>
      exact VariantA.segInv_update id (fun p => { p with performance := v })
        (fun p hp => hp) s ih
    | segregation id v =>
      exact VariantA.segInv_update id (VariantA.setSegregationRecord v)
        (fun p _ => VariantA.segBlack_setSegregationRecord v p) s ih
    | repurposed id v =>
      exact VariantA.segInv_update id (fun p => { p with dataRepurposed := v })
        (fun p hp => hp) s ih

/-- Witness for C3: the invariant holds on a concrete seed store containing
one Terminated (and hence Black) record. -/
theorem claim_C3_witness :
    VariantA.SegInv
      (VariantA.generateSeedInterns 0 1 (fun _ => VariantA.cexDraws)) :=
  claim_C3 _ (VariantA.ReachableSafe.seed 0 1 (fun _ => VariantA.cexDraws))
